import Mathlib

/-!
Verification of the Coinbot trading-bot core against its specification.

The Python source is shallowly embedded:
* floats become `ℚ` (all arithmetic in the modelled paths is exact in the source
  inputs we reason about);
* raised exceptions become `Except CoinbotError` / `Option`;
* Python's negative list indexing (which raises `IndexError` out of range)
  becomes `pyNegIdx : List ℚ → ℕ → Option ℚ`;
* the chained comparisons of `signals.macd_signal` are embedded with Python's
  left-to-right short-circuit evaluation order, so that an out-of-range access
  happens exactly when Python would perform it.
-/

namespace Coinbot

set_option maxRecDepth 1000000

/-- Python class `signals.TradebotAction`: the three trade verdicts. -/
inductive TradebotAction where
  | BUY
  | HOLD
  | SELL
deriving DecidableEq, Repr

/-- The exception classes of `coinbot.backend.exceptions`, plus the Python
built-in exceptions that the embedded code paths can raise
(`AssertionError` from the constructor asserts, `KeyError` from a failed
dict lookup, `IndexError` from list indexing). -/
inductive CoinbotError where
  | CoinbotUnexpectedValueError
  | CoinbotUnexpectedTypeError
  | CoinbotExceededNumAPICallsError
  | AssertionError
  | KeyError
  | IndexError
deriving DecidableEq, Repr

/-- Python negative indexing `xs[-k]` on a list of rationals: the `k`-th
element from the end, `IndexError` (here `none`) when `k = 0` or when `k`
exceeds the length.  For `1 ≤ k ≤ len`, `xs[-k] = xs[len - k]`. -/
def pyNegIdx (xs : List ℚ) (k : ℕ) : Option ℚ :=
  if 1 ≤ k ∧ k ≤ xs.length then xs.get? (xs.length - k) else none

/-- First conjunct chain of `signals.macd_signal`:
`macd_hist[-1] > 0 and macd_hist[-1] >= macd_hist[-2] >= macd_hist[-3]`,
with Python's short-circuit evaluation (a later index is only read when all
earlier comparisons succeeded). -/
def buyCond (hist : List ℚ) : Option Bool := do
  let h1 ← pyNegIdx hist 1
  if 0 < h1 then do
    let h2 ← pyNegIdx hist 2
    if h2 ≤ h1 then do
      let h3 ← pyNegIdx hist 3
      pure (decide (h3 ≤ h2))
    else pure false
  else pure false

/-- Second branch condition of `signals.macd_signal`:
`0 < macd_hist[-1] <= macd_hist[-2] <= macd_hist[-3] <= macd_hist[-4]`,
again with short-circuit evaluation. -/
def sellCond (hist : List ℚ) : Option Bool := do
  let h1 ← pyNegIdx hist 1
  if 0 < h1 then do
    let h2 ← pyNegIdx hist 2
    if h1 ≤ h2 then do
      let h3 ← pyNegIdx hist 3
      if h2 ≤ h3 then do
        let h4 ← pyNegIdx hist 4
        pure (decide (h3 ≤ h4))
      else pure false
    else pure false
  else pure false

/-- Third branch condition of `signals.macd_signal`: `macd_hist[-1] > 0`. -/
def holdCond (hist : List ℚ) : Option Bool := do
  let h1 ← pyNegIdx hist 1
  pure (decide (0 < h1))

/-- `signals.macd_signal`, as a function of the MACD histogram series
`macd_line - macd_signal` (oldest first, Python list order).  `none` models a
raised `IndexError` from an out-of-range negative index. -/
def macd_signal (hist : List ℚ) : Option TradebotAction := do
  let b ← buyCond hist
  if b then pure TradebotAction.BUY
  else do
    let s ← sellCond hist
    if s then pure TradebotAction.SELL
    else do
      let hc ← holdCond hist
      if hc then pure TradebotAction.HOLD
      else pure TradebotAction.SELL

/-- Dictionary `TIME_RESOLUTIONS` of `coinbot/__init__.py`: bar width name to
seconds. -/
def TIME_RESOLUTIONS : List (String × ℚ) :=
  [("1m", 60), ("5m", 5 * 60), ("15m", 15 * 60), ("30m", 30 * 60), ("1h", 60 * 60),
   ("2h", 2 * 60 * 60), ("4h", 4 * 60 * 60), ("6h", 6 * 60 * 60), ("8h", 8 * 60 * 60),
   ("12h", 12 * 60 * 60), ("1d", 24 * 60 * 60)]

/-- Dictionary `TIME_SPANS` of `coinbot/__init__.py`: lookback span name to
seconds. -/
def TIME_SPANS : List (String × ℚ) :=
  [("1h", 60 * 60), ("2h", 2 * 60 * 60), ("4h", 4 * 60 * 60), ("8h", 8 * 60 * 60),
   ("12h", 12 * 60 * 60), ("1d", 24 * 60 * 60), ("1w", 7 * 24 * 60 * 60),
   ("2w", 14 * 24 * 60 * 60), ("1m", 30 * 24 * 60 * 60), ("2m", 61 * 24 * 60 * 60),
   ("4m", 122 * 24 * 60 * 60), ("6m", 183 * 24 * 60 * 60), ("1y", 365 * 24 * 60 * 60),
   ("2y", 2 * 365 * 24 * 60 * 60), ("5y", 5 * 365 * 24 * 60 * 60)]

/-- Value of `np.max` on a nonempty list (0 on the empty list, which the
source never reaches because the call is guarded by a length check). -/
def listMax : List ℚ → ℚ
  | [] => 0
  | x :: xs => xs.foldl max x

/-- Value of `np.min` on a nonempty list (0 on the empty list, which the
source never reaches because the call is guarded by a length check). -/
def listMin : List ℚ → ℚ
  | [] => 0
  | x :: xs => xs.foldl min x

/-- The `candles.OHLCVCandles` object after a successful `__init__`.
The derived display fields (`timelabels`, `timespan_in_minutes`, ...) are
pure renderings of `timestamps` and `timespan` and are omitted. -/
structure OHLCVCandles where
  symbol : String
  timestamps : List ℚ
  time_resolution : String
  opening_positions : List ℚ
  high_positions : List ℚ
  low_positions : List ℚ
  close_positions : List ℚ
  volumes : List ℚ
  order : String
  num_candles : ℕ
  timespan : ℚ
deriving DecidableEq, Repr

/-- Constructor `OHLCVCandles.__init__`, in the source's evaluation order:
first the timespan (a `KeyError` if the resolution is not a known key and the
series is nonempty; `0.0` for the empty series), then the two length asserts,
then the `order` validation, finally the in-place reversal of every sequence
when `order` is `"newer-to-older"`.  Timestamps are epoch milliseconds; the
timespan is in seconds, hence the division by 1000. -/
def OHLCVCandles.init (symbol : String) (timestamps : List ℚ) (time_resolution : String)
    (opening_positions high_positions low_positions close_positions volumes : List ℚ)
    (order : String) : Except CoinbotError OHLCVCandles :=
  let build : ℚ → Except CoinbotError OHLCVCandles := fun timespan =>
    if timestamps.length = opening_positions.length ∧
        opening_positions.length = close_positions.length ∧
        close_positions.length = high_positions.length then
      if timestamps.length = low_positions.length ∧
          low_positions.length = volumes.length then
        if order = "older-to-newer" ∨ order = "newer-to-older" then
          if order = "newer-to-older" then
            Except.ok ⟨symbol, timestamps.reverse, time_resolution, opening_positions.reverse,
              high_positions.reverse, low_positions.reverse, close_positions.reverse,
              volumes.reverse, order, timestamps.length, timespan⟩
          else
            Except.ok ⟨symbol, timestamps, time_resolution, opening_positions, high_positions,
              low_positions, close_positions, volumes, order, timestamps.length, timespan⟩
        else Except.error CoinbotError.CoinbotUnexpectedValueError
      else Except.error CoinbotError.AssertionError
    else Except.error CoinbotError.AssertionError
  if 0 < timestamps.length then
    match TIME_RESOLUTIONS.lookup time_resolution with
    | none => Except.error CoinbotError.KeyError
    | some res => build ((listMax timestamps - listMin timestamps) / 1000 + res)
  else build 0

/-- One pandas `ewm(span=..).mean()` scan with the default `adjust=True`
weighting: the running numerator and denominator satisfy
`num_t = x_t + (1-alpha) num_(t-1)` and `den_t = 1 + (1-alpha) den_(t-1)`,
and the mean at step `t` is `num_t / den_t`. -/
def ewmMeanAux (alpha : ℚ) : ℚ → ℚ → List ℚ → List ℚ
  | _, _, [] => []
  | num, den, x :: xs =>
    let num2 := x + (1 - alpha) * num
    let den2 := 1 + (1 - alpha) * den
    (num2 / den2) :: ewmMeanAux alpha num2 den2 xs

/-- Series `s.ewm(span=span).mean()` with `alpha = 2 / (span + 1)`, as used by
`indicators.macd_indicator`. -/
def ewmMean (span : ℚ) (xs : List ℚ) : List ℚ :=
  ewmMeanAux (2 / (span + 1)) 0 0 xs

/-- Column `macd_line` of `indicators.macd_indicator`:
`ema_fast - ema_slow` over the closing positions. -/
def macd_line (closes : List ℚ) (short_period long_period : ℚ) : List ℚ :=
  List.zipWith (fun a b => a - b) (ewmMean short_period closes) (ewmMean long_period closes)

/-- Column `macd_signal` of `indicators.macd_indicator`: the EMA of the MACD
line over the signal period. -/
def macd_signal_col (closes : List ℚ) (short_period long_period signal_period : ℚ) : List ℚ :=
  ewmMean signal_period (macd_line closes short_period long_period)

/-- MACD histogram `macd_line - macd_signal` read off the indicator frame,
the series that `signals.macd_signal` and the bot act on. -/
def macdHistOf (closes : List ℚ) (short_period long_period signal_period : ℚ) : List ℚ :=
  List.zipWith (fun a b => a - b) (macd_line closes short_period long_period)
    (macd_signal_col closes short_period long_period signal_period)

/-- Response of a market order: either a payload with an `"error"` key, or a
fill report. -/
inductive OrderResponse where
  | errorResp (msg : String)
  | filled (filledAmount filledAmountQuote feePaid : ℚ)
deriving DecidableEq, Repr

/-- One raw candle `[timestamp, open, high, low, close, volume]` as returned
by the exchange's `candles` endpoint. -/
structure CandleRow where
  ts : ℚ
  op : ℚ
  hi : ℚ
  lo : ℚ
  cl : ℚ
  vo : ℚ
deriving DecidableEq, Repr

/-- The state of the exchange as seen through the wire client, one snapshot
per modelled call sequence: the remaining call quota, the available-symbol
list the client computed at start-up, balances, 24h tickers, the server time
and the candle endpoint, and the responses to market orders. -/
structure BitvavoEnv where
  remaining_limit : ℤ
  available_symbols : List String
  owned_symbols : List String
  owned_amount : String → ℚ
  ticker_price : String → ℚ
  ticker_open : String → ℚ
  ticker_last : String → ℚ
  ticker_volume : String → ℚ
  server_time : ℤ
  api_candles : String → String → ℤ → ℤ → List CandleRow
  sell_response : String → ℚ → OrderResponse
  buy_response : String → ℚ → OrderResponse

/-- Decorator `clients.limit_api_calls` for an operation whose result is
paired with the number of underlying exchange network calls it performs: if
`get_remaining_limit() < 100` the call raises
`CoinbotExceededNumAPICallsError` and performs no network call, otherwise
the wrapped operation runs unchanged. -/
def limit_api_calls {α : Type} (remaining : ℤ) (op : Except CoinbotError α × ℕ) :
    Except CoinbotError α × ℕ :=
  if remaining < 100 then (Except.error CoinbotError.CoinbotExceededNumAPICallsError, 0) else op

/-- The same quota guard for operations where we do not track the network
call count. -/
def guarded {α : Type} (env : BitvavoEnv) (op : Except CoinbotError α) :
    Except CoinbotError α :=
  if env.remaining_limit < 100 then Except.error CoinbotError.CoinbotExceededNumAPICallsError
  else op

/-- Method `BitvavoClient.get_symbol_price`, with the count of underlying
network calls: quota guard first, then the membership validation, then the
quote-currency shortcut (no network call), else one `tickerPrice` call. -/
def get_symbol_price (env : BitvavoEnv) (symbol : String) : Except CoinbotError ℚ × ℕ :=
  limit_api_calls env.remaining_limit
    (if symbol ∉ env.available_symbols then
      (Except.error CoinbotError.CoinbotUnexpectedValueError, 0)
    else if symbol = "EUR" then (Except.ok 1, 0)
    else (Except.ok (env.ticker_price symbol), 1))

/-- Method `BitvavoClient.get_available_symbols` as called inside the scan
loop (the computed list is part of the snapshot). -/
def get_available_symbols (env : BitvavoEnv) : Except CoinbotError (List String) :=
  guarded env (Except.ok env.available_symbols)

/-- Method `BitvavoClient.get_owned_symbols`. -/
def get_owned_symbols (env : BitvavoEnv) : Except CoinbotError (List String) :=
  guarded env (Except.ok env.owned_symbols)

/-- Method `BitvavoClient.get_symbol_owned_amount`: validated against the
available set, then the balance snapshot (0.0 when not held is part of the
`owned_amount` oracle). -/
def get_symbol_owned_amount (env : BitvavoEnv) (symbol : String) : Except CoinbotError ℚ :=
  guarded env
    (if symbol ∉ env.available_symbols then Except.error CoinbotError.CoinbotUnexpectedValueError
    else Except.ok (env.owned_amount symbol))

/-- Method `BitvavoClient.get_available_funds` =
`get_symbol_owned_amount("EUR")`. -/
def get_available_funds (env : BitvavoEnv) : Except CoinbotError ℚ :=
  get_symbol_owned_amount env "EUR"

/-- Method `BitvavoClient.get_symbol_24h_percentual_change`: 0.0 for the
quote currency, else `(last - open) / open * 100` from the 24h ticker (the
`TypeError -> 0.0` branch is absorbed by the totality of the ticker
oracle). -/
def get_symbol_24h_percentual_change (env : BitvavoEnv) (symbol : String) :
    Except CoinbotError ℚ :=
  guarded env
    (if symbol ∉ env.available_symbols then Except.error CoinbotError.CoinbotUnexpectedValueError
    else if symbol = "EUR" then Except.ok 0
    else Except.ok ((env.ticker_last symbol - env.ticker_open symbol) /
      env.ticker_open symbol * 100))

/-- Method `BitvavoClient.get_symbol_24h_volume`: 0.0 for the quote currency,
else the quote volume of the 24h ticker (a `None` volume is reported as 0.0,
absorbed by the oracle's totality). -/
def get_symbol_24h_volume (env : BitvavoEnv) (symbol : String) : Except CoinbotError ℚ :=
  guarded env
    (if symbol ∉ env.available_symbols then Except.error CoinbotError.CoinbotUnexpectedValueError
    else if symbol = "EUR" then Except.ok 0
    else Except.ok (env.ticker_volume symbol))

/-- Method `BitvavoClient.sell`: quota-guarded order placement; the exchange's
answer comes from the snapshot. -/
def sell (env : BitvavoEnv) (symbol : String) (amount_in_coins : ℚ) :
    Except CoinbotError OrderResponse :=
  guarded env (Except.ok (env.sell_response symbol amount_in_coins))

/-- Method `BitvavoClient.buy`. -/
def buy (env : BitvavoEnv) (symbol : String) (amount_in_euro : ℚ) :
    Except CoinbotError OrderResponse :=
  guarded env (Except.ok (env.buy_response symbol amount_in_euro))

/-- Python `int(q)`: truncation toward zero. -/
def pyInt (q : ℚ) : ℤ := if q < 0 then Int.ceil q else Int.floor q

/-- Pairwise-adjacent check that a list is in non-increasing order (newest
first when read as a timestamp sequence). -/
def nonIncreasingB : List ℚ → Bool
  | a :: b :: rest => decide (b ≤ a) && nonIncreasingB (b :: rest)
  | _ => true

/-- Pairwise-adjacent check that a list is in non-decreasing order (oldest
first when read as a timestamp sequence). -/
def nonDecreasingB : List ℚ → Bool
  | a :: b :: rest => decide (a ≤ b) && nonDecreasingB (b :: rest)
  | _ => true

/-- Request loop of `BitvavoClient.get_candles`: the requested window is cut
into `num_requests` equal slices walked backward from the server time, the
slices are fetched in that order and their rows concatenated.  `res` and
`span` are the looked-up second values of the resolution and span names. -/
def fetched_rows (env : BitvavoEnv) (symbol time_resolution : String) (res span : ℚ) :
    List CandleRow :=
  let num_candles : ℤ := Int.ceil (span / res)
  let begin_timestamp : ℤ := env.server_time
  let end_timestamp : ℤ := pyInt ((begin_timestamp : ℚ) / 1000 - span) * 1000
  let num_requests : ℤ := Int.ceil ((num_candles : ℚ) / 1000)
  let total_time_span : ℤ := begin_timestamp - end_timestamp
  let time_span_per_request : ℤ := Int.fdiv total_time_span num_requests
  ((List.range num_requests.toNat).map (fun request_nr =>
    env.api_candles symbol time_resolution
      (begin_timestamp - ((request_nr : ℤ) + 1) * time_span_per_request)
      (begin_timestamp - (request_nr : ℤ) * time_span_per_request))).flatten

/-- Method `BitvavoClient.get_candles`: quota guard, the three input
validations, the request loop, and the construction of the candles object
with `order="newer-to-older"`. -/
def get_candles (env : BitvavoEnv) (symbol time_resolution time_span : String) :
    Except CoinbotError OHLCVCandles :=
  guarded env
    (match TIME_RESOLUTIONS.lookup time_resolution with
    | none => Except.error CoinbotError.CoinbotUnexpectedValueError
    | some res =>
      match TIME_SPANS.lookup time_span with
      | none => Except.error CoinbotError.CoinbotUnexpectedValueError
      | some span =>
        if symbol ∉ env.available_symbols then
          Except.error CoinbotError.CoinbotUnexpectedValueError
        else
          let rows := fetched_rows env symbol time_resolution res span
          OHLCVCandles.init symbol (rows.map CandleRow.ts) time_resolution
            (rows.map CandleRow.op) (rows.map CandleRow.hi) (rows.map CandleRow.lo)
            (rows.map CandleRow.cl) (rows.map CandleRow.vo) "newer-to-older")

/-- Fuel-bounded base-10 floor logarithm on naturals (the fuel `n` itself is
always enough: dividing by 10 reaches a single digit within `n` steps). -/
def log10Aux : ℕ → ℕ → ℕ
  | 0, _ => 0
  | fuel + 1, n => if n < 10 then 0 else log10Aux fuel (n / 10) + 1

/-- Fuel-bounded base-10 ceiling logarithm on naturals. -/
def clog10Aux : ℕ → ℕ → ℕ
  | 0, _ => 0
  | fuel + 1, n => if n ≤ 1 then 0 else clog10Aux fuel ((n + 9) / 10) + 1

/-- Idealised `math.floor(math.log(q, 10))` for the stored volume magnitude
(the source computes it in floats; no claim depends on the stored value). -/
def magnitude10 (q : ℚ) : ℤ :=
  if 1 ≤ q then (log10Aux (Int.toNat (Int.floor q)) (Int.toNat (Int.floor q)) : ℤ)
  else if 0 < q then -(clog10Aux (Int.toNat (Int.ceil (1 / q))) (Int.toNat (Int.ceil (1 / q))) : ℤ)
  else 0

/-- One entry of the promising-symbol record built by
`macd_bot.get_promising_symbols`. -/
structure SymbolMetrics where
  price_24h_growth : ℚ
  volume_24h : ℚ
  volume_24h_magnitude : ℤ
  macd_ind : TradebotAction
  macd_val : ℚ
deriving DecidableEq, Repr

/-- Body of the scan loop of `macd_bot.get_promising_symbols` for one symbol:
each `continue` of the source returns `none`, a recorded symbol returns its
metrics, and a raised exception aborts with `Except.error`.  The history
check compares the candle count against the literal 90 of the source. -/
def scanSymbol (env : BitvavoEnv) (volume_limit : ℚ) (res : String) (p1 p2 p3 : ℚ)
    (symbol : String) : Except CoinbotError (Option (String × SymbolMetrics)) := do
  let price_24h_growth ← get_symbol_24h_percentual_change env symbol
  if price_24h_growth ≤ 0 then Except.ok none
  else do
    let volume_24_h ← get_symbol_24h_volume env symbol
    if volume_24_h < volume_limit then Except.ok none
    else do
      let candles ← get_candles env symbol res "1m"
      if candles.timestamps.length ≠ 90 then Except.ok none
      else
        let hist := macdHistOf candles.close_positions p1 p2 p3
        match macd_signal hist with
        | none => Except.error CoinbotError.IndexError
        | some macd_ind =>
          if macd_ind ≠ TradebotAction.BUY then Except.ok none
          else Except.ok (some (symbol,
            ⟨price_24h_growth, volume_24_h, magnitude10 volume_24_h, macd_ind,
              hist.getLastD 0⟩))

/-- Sequential run of the scan over a symbol list, recording the promising
ones in iteration order; an exception aborts the whole scan as in the
source. -/
def scanAll (f : String → Except CoinbotError (Option (String × SymbolMetrics))) :
    List String → Except CoinbotError (List (String × SymbolMetrics))
  | [] => Except.ok []
  | s :: rest => do
    let r ← f s
    let tail ← scanAll f rest
    match r with
    | none => Except.ok tail
    | some p => Except.ok (p :: tail)

/-- Function `macd_bot.get_promising_symbols`. -/
def get_promising_symbols (env : BitvavoEnv) (volume_limit : ℚ) (res : String)
    (p1 p2 p3 : ℚ) : Except CoinbotError (List (String × SymbolMetrics)) := do
  let symbols ← get_available_symbols env
  scanAll (scanSymbol env volume_limit res p1 p2 p3) symbols

/-- Tuples `(symbol, volume_24h_magnitude, price_24h_growth, volume_24h_magnitude)`
built by `macd_bot.select_best_symbols` from the promising-symbol record. -/
def symbolData (interesting_symbols : List (String × SymbolMetrics)) :
    List (String × ℤ × ℚ × ℤ) :=
  interesting_symbols.map
    (fun p => (p.1, p.2.volume_24h_magnitude, p.2.price_24h_growth, p.2.volume_24h_magnitude))

/-- The sort key order of `sorted(data, key=lambda x: (x[1], x[2]))`:
ascending lexicographic on (volume magnitude, 24h growth). -/
def keyLe (a b : String × ℤ × ℚ × ℤ) : Prop :=
  a.2.1 < b.2.1 ∨ (a.2.1 = b.2.1 ∧ a.2.2.1 ≤ b.2.2.1)

instance : DecidableRel keyLe := fun a b => by
  unfold keyLe; exact inferInstance

instance : IsTotal (String × ℤ × ℚ × ℤ) keyLe where
  total a b := by
    unfold keyLe
    rcases lt_trichotomy a.2.1 b.2.1 with h | h | h
    · exact Or.inl (Or.inl h)
    · rcases le_total a.2.2.1 b.2.2.1 with h2 | h2
      · exact Or.inl (Or.inr ⟨h, h2⟩)
      · exact Or.inr (Or.inr ⟨h.symm, h2⟩)
    · exact Or.inr (Or.inl h)

instance : IsTrans (String × ℤ × ℚ × ℤ) keyLe where
  trans a b c hab hbc := by
    unfold keyLe at *
    rcases hab with h | ⟨he, h2⟩
    · rcases hbc with h3 | ⟨he3, _⟩
      · exact Or.inl (h.trans h3)
      · exact Or.inl (he3 ▸ h)
    · rcases hbc with h3 | ⟨he3, h4⟩
      · exact Or.inl (he ▸ h3)
      · exact Or.inr ⟨he.trans he3, h2.trans h4⟩

/-- The list of `macd_bot.select_best_symbols` after the stable ascending
sort and the reversal: candidates in descending key order. -/
def sortedData (interesting_symbols : List (String × SymbolMetrics)) :
    List (String × ℤ × ℚ × ℤ) :=
  (List.insertionSort keyLe (symbolData interesting_symbols)).reverse

/-- The retained prefix `data[:num_symbols_to_select]`. -/
def select_data (interesting_symbols : List (String × SymbolMetrics))
    (num_symbols_to_select : ℕ) : List (String × ℤ × ℚ × ℤ) :=
  (sortedData interesting_symbols).take num_symbols_to_select

/-- The discarded remainder of the ranking. -/
def select_rest (interesting_symbols : List (String × SymbolMetrics))
    (num_symbols_to_select : ℕ) : List (String × ℤ × ℚ × ℤ) :=
  (sortedData interesting_symbols).drop num_symbols_to_select

/-- Function `macd_bot.select_best_symbols`: the symbols of the retained
prefix. -/
def select_best_symbols (interesting_symbols : List (String × SymbolMetrics))
    (num_symbols_to_select : ℕ) : List String :=
  (select_data interesting_symbols num_symbols_to_select).map (fun d => d.1)

/-- Function `macd_bot.live_sell`: dump the full owned amount; an `"error"`
payload in the response is logged and reported as `False`, not raised. -/
def live_sell (env : BitvavoEnv) (symbol : String) : Except CoinbotError Bool := do
  let amount_in_coins ← get_symbol_owned_amount env symbol
  let response ← sell env symbol amount_in_coins
  match response with
  | OrderResponse.errorResp _ => Except.ok false
  | OrderResponse.filled _ _ _ => Except.ok true

/-- Function `macd_bot.live_buy` (the taker-fee argument is unused by the
source body). -/
def live_buy (env : BitvavoEnv) (symbol : String) (amount_in_euro : ℚ) :
    Except CoinbotError Bool := do
  let response ← buy env symbol amount_in_euro
  match response with
  | OrderResponse.errorResp _ => Except.ok false
  | OrderResponse.filled _ _ _ => Except.ok true

/-- Body of the review loop of `macd_bot.analyse_existing_positions` for one
owned symbol: fetch the 1-month candles, compute the MACD histogram, evaluate
the signal, and liquidate on SELL.  The returned Boolean is `live_sell`'s
success flag (`false` when the position is kept).  The plot/log side effects
are I/O and are omitted. -/
def reviewOne (env : BitvavoEnv) (res : String) (p1 p2 p3 : ℚ) (os : String) :
    Except CoinbotError Bool := do
  let candles ← get_candles env os res "1m"
  let hist := macdHistOf candles.close_positions p1 p2 p3
  match macd_signal hist with
  | none => Except.error CoinbotError.IndexError
  | some macd_ind =>
    if macd_ind = TradebotAction.SELL then live_sell env os
    else Except.ok false

/-- Sequential per-symbol loop with Python exception propagation: the
processed prefix is recorded with each symbol's outcome, and the first raised
exception aborts the loop, leaving the remaining symbols unprocessed. -/
def runReview {α : Type} (f : String → Except CoinbotError α) :
    List String → List (String × α) × Option CoinbotError
  | [] => ([], none)
  | s :: rest =>
    match f s with
    | Except.error e => ([], some e)
    | Except.ok a =>
      let r := runReview f rest
      ((s, a) :: r.1, r.2)

/-- Function `macd_bot.analyse_existing_positions`: the review loop over the
owned symbols, with the processed prefix and the aborting exception (if any). -/
def analyse_existing_positions (env : BitvavoEnv) (res : String) (p1 p2 p3 : ℚ) :
    List (String × Bool) × Option CoinbotError :=
  runReview (reviewOne env res p1 p2 p3) env.owned_symbols

/-- Body of `BitvavoClient.panic` for one owned symbol: look up the owned
amount and dump it at market. -/
def sellOne (env : BitvavoEnv) (owned_symbol : String) : Except CoinbotError OrderResponse := do
  let amount_in_coins ← get_symbol_owned_amount env owned_symbol
  sell env owned_symbol amount_in_coins

/-- Method `BitvavoClient.panic` (the spec's `liquidate_all`): quota-guarded
itself, then one market sell per owned symbol, with Python exception
propagation out of the loop. -/
def panic (env : BitvavoEnv) : List (String × OrderResponse) × Option CoinbotError :=
  if env.remaining_limit < 100 then ([], some CoinbotError.CoinbotExceededNumAPICallsError)
  else runReview (sellOne env) env.owned_symbols

/-- Function `macd_bot.open_new_positions`: returns the list of issued market
buys `(symbol, amountQuote)` — one `live_buy` per selected symbol, each for
`np.floor(tradeable_funds / additional_pos)` euro.  The two warn/no-op
branches of the source issue no buys. -/
def open_new_positions (env : BitvavoEnv) (volume_limit : ℚ) (res : String)
    (p1 p2 p3 : ℚ) (num_desired_positions : ℤ) :
    Except CoinbotError (List (String × ℚ)) := do
  let owned ← get_owned_symbols env
  let num_open_pos : ℤ := owned.length
  let num_pos_to_open : ℤ := num_desired_positions - num_open_pos
  let funds ← get_available_funds env
  let tradeable_funds : ℚ := funds * (975 / 1000)
  let minimal_funds_per_symbol : ℚ := 51 / 10
  if num_open_pos < num_desired_positions ∧
      minimal_funds_per_symbol * (num_pos_to_open : ℚ) < tradeable_funds then do
    let additional_pos : ℤ := num_desired_positions - num_open_pos
    let interesting_symbols ← get_promising_symbols env volume_limit res p1 p2 p3
    let selected_symbols := select_best_symbols interesting_symbols additional_pos.toNat
    let funds_per_symbol : ℚ := ((Int.floor (tradeable_funds / (additional_pos : ℚ))) : ℤ)
    Except.ok (selected_symbols.map (fun ss => (ss, funds_per_symbol)))
  else Except.ok []

/-- The 24h growth value that `get_symbol_24h_percentual_change` reports for
an available symbol once the quota guard has passed. -/
def change24Val (env : BitvavoEnv) (s : String) : ℚ :=
  if s = "EUR" then 0 else (env.ticker_last s - env.ticker_open s) / env.ticker_open s * 100

/-- The 24h quote volume that `get_symbol_24h_volume` reports for an
available symbol once the quota guard has passed. -/
def vol24Val (env : BitvavoEnv) (s : String) : ℚ :=
  if s = "EUR" then 0 else env.ticker_volume s

/-- The candle object a successful `get_candles` call returns: the
concatenated rows, reversed by the constructor, with the timespan derived
from the raw timestamps. -/
def fetchedCandles (env : BitvavoEnv) (symbol res_name : String) (rv sv : ℚ) : OHLCVCandles :=
  let rows := fetched_rows env symbol res_name rv sv
  ⟨symbol, (rows.map CandleRow.ts).reverse, res_name, (rows.map CandleRow.op).reverse,
    (rows.map CandleRow.hi).reverse, (rows.map CandleRow.lo).reverse,
    (rows.map CandleRow.cl).reverse, (rows.map CandleRow.vo).reverse, "newer-to-older",
    rows.length,
    if 0 < rows.length then
      (listMax (rows.map CandleRow.ts) - listMin (rows.map CandleRow.ts)) / 1000 + rv
    else 0⟩

/-- The four recording conditions of the scan loop for one available symbol
(quota passing): positive 24h growth, volume at or above the floor, exactly
90 fetched bars, and a BUY MACD signal on the fetched history. -/
def isPromising (env : BitvavoEnv) (volume_limit : ℚ) (res : String) (rv p1 p2 p3 : ℚ)
    (s : String) : Prop :=
  0 < change24Val env s ∧ volume_limit ≤ vol24Val env s
    ∧ (fetchedCandles env s res rv 2592000).timestamps.length = 90
    ∧ macd_signal (macdHistOf (fetchedCandles env s res rv 2592000).close_positions p1 p2 p3)
        = some TradebotAction.BUY

instance (env : BitvavoEnv) (volume_limit : ℚ) (res : String) (rv p1 p2 p3 : ℚ)
    (s : String) : Decidable (isPromising env volume_limit res rv p1 p2 p3 s) := by
  unfold isPromising; exact inferInstance

/-- The record the scan stores for one symbol: `some` entry exactly when the
symbol is promising. -/
def promisingEntry (env : BitvavoEnv) (volume_limit : ℚ) (res : String) (rv p1 p2 p3 : ℚ)
    (s : String) : Option (String × SymbolMetrics) :=
  if isPromising env volume_limit res rv p1 p2 p3 s then
    some (s, ⟨change24Val env s, vol24Val env s, magnitude10 (vol24Val env s),
      TradebotAction.BUY,
      (macdHistOf (fetchedCandles env s res rv 2592000).close_positions p1 p2 p3).getLastD 0⟩)
  else none

/-- Promising record with 24h volume of magnitude 6 and growth 3%. -/
def metricsA : SymbolMetrics := ⟨3, 1000000, 6, TradebotAction.BUY, 1⟩

/-- Promising record with 24h volume of magnitude 6 and growth 7%. -/
def metricsB : SymbolMetrics := ⟨7, 2000000, 6, TradebotAction.BUY, 1⟩

/-- Promising record with 24h volume of magnitude 7 and growth 1%. -/
def metricsC : SymbolMetrics := ⟨1, 20000000, 7, TradebotAction.BUY, 1⟩

/-- The spec's ranking example: three promising symbols. -/
def intrC5 : List (String × SymbolMetrics) := [("A", metricsA), ("B", metricsB), ("C", metricsC)]

/-! Concrete exchange snapshots used to instantiate the theorems below. -/

/-- A healthy baseline snapshot: plenty of quota, three symbols, flat
tickers. -/
def baseEnv : BitvavoEnv where
  remaining_limit := 1000
  available_symbols := ["AAA", "BBB", "EUR"]
  owned_symbols := []
  owned_amount := fun s => if s = "EUR" then 4000 / 39 else 2
  ticker_price := fun _ => 1
  ticker_open := fun _ => 100
  ticker_last := fun _ => 110
  ticker_volume := fun _ => 300000
  server_time := 1000000000
  api_candles := fun _ _ _ _ => []
  sell_response := fun _ _ => OrderResponse.filled 1 1 0
  buy_response := fun _ _ => OrderResponse.filled 1 1 0

/-- `n` raw candles, newest first, with geometrically growing closes (so the
MACD histogram of the reversed series is positive and strictly building). -/
def geoRows (n : ℕ) : List CandleRow :=
  (List.range n).map (fun i => ⟨(((n - i : ℕ) : ℚ)) * 1000, 1, 1, 1, (2 : ℚ) ^ (n - i : ℕ), 1⟩)

/-- Snapshot with the quota nearly exhausted (99 remaining calls). -/
def cexEnv9 : BitvavoEnv := { baseEnv with remaining_limit := 99 }

/-- Snapshot whose candle endpoint returns a full 30-bar one-month history at
the 1-day resolution. -/
def cexEnv7 : BitvavoEnv :=
  { baseEnv with available_symbols := ["AAA"], api_candles := fun _ _ _ _ => geoRows 30 }

/-- Snapshot whose candle endpoint returns a full 90-bar one-month history at
the 8-hour resolution. -/
def witEnv7 : BitvavoEnv :=
  { baseEnv with available_symbols := ["AAA"], api_candles := fun _ _ _ _ => geoRows 90 }

/-- Snapshot whose candle endpoint returns two bars, newest first. -/
def cexEnv6 : BitvavoEnv :=
  { baseEnv with api_candles := fun _ _ _ _ => [⟨2000, 1, 1, 1, 1, 1⟩, ⟨1000, 1, 1, 1, 1, 1⟩] }

/-- The candles object `get_candles cexEnv6 "AAA" "1m" "1h"` constructs. -/
def cexCandle6 : OHLCVCandles :=
  ⟨"AAA", [1000, 2000], "1m", [1, 1], [1, 1], [1, 1], [1, 1], [1, 1], "newer-to-older", 2, 61⟩

/-- Snapshot where the symbol "AAA" is still owned but no longer in the
available set (delisted), while "BBB" is owned and fetchable with a flat
4-bar history. -/
def cexEnv3 : BitvavoEnv :=
  { baseEnv with
    available_symbols := ["BBB", "EUR"], owned_symbols := ["AAA", "BBB"],
    api_candles := fun _ _ _ _ =>
      [⟨4000, 1, 1, 1, 5, 1⟩, ⟨3000, 1, 1, 1, 5, 1⟩, ⟨2000, 1, 1, 1, 5, 1⟩,
        ⟨1000, 1, 1, 1, 5, 1⟩] }

/-- Snapshot with no tradeable market symbols and an EUR balance of 4000/39,
whose tradeable fraction `* 0.975` is exactly 100. -/
def witEnvC4 : BitvavoEnv := { baseEnv with available_symbols := ["EUR"] }

/-! Helper lemmas. -/

/-- The per-symbol loop with exception propagation: when every symbol of the
prefix `xs` succeeds and `y` raises, exactly `xs` is processed and the error
is `y`'s. -/
theorem runReview_append_error {α : Type} (f : String → Except CoinbotError α)
    (xs : List String) (y : String) (ys : List String) (e : CoinbotError)
    (hxs : ∀ x ∈ xs, ∃ a, f x = Except.ok a) (hy : f y = Except.error e) :
    (runReview f (xs ++ y :: ys)).1.map Prod.fst = xs
      ∧ (runReview f (xs ++ y :: ys)).2 = some e := by
  induction xs with
  | nil => simp [runReview, hy]
  | cons x xs ih =>
    obtain ⟨a, ha⟩ := hxs x (by simp)
    have ih2 := ih (fun z hz => hxs z (by simp [hz]))
    simp [runReview, ha, ih2.1, ih2.2]

/-- The Boolean non-increasing check is the adjacent chain of `≥`. -/
theorem nonIncreasingB_iff (l : List ℚ) :
    nonIncreasingB l = true ↔ List.Chain' (fun a b : ℚ => b ≤ a) l := by
  induction l with
  | nil => simp [nonIncreasingB]
  | cons a l ih =>
    cases l with
    | nil => simp [nonIncreasingB]
    | cons b m =>
      rw [nonIncreasingB, List.chain'_cons, Bool.and_eq_true, decide_eq_true_eq, ih]

/-- The Boolean non-decreasing check is the adjacent chain of `≤`. -/
theorem nonDecreasingB_iff (l : List ℚ) :
    nonDecreasingB l = true ↔ List.Chain' (fun a b : ℚ => a ≤ b) l := by
  induction l with
  | nil => simp [nonDecreasingB]
  | cons a l ih =>
    cases l with
    | nil => simp [nonDecreasingB]
    | cons b m =>
      rw [nonDecreasingB, List.chain'_cons, Bool.and_eq_true, decide_eq_true_eq, ih]

/-- Reversing a non-increasing list yields a non-decreasing list. -/
theorem nonDecreasingB_reverse_of_nonIncreasingB (l : List ℚ)
    (h : nonIncreasingB l = true) : nonDecreasingB l.reverse = true := by
  rw [nonDecreasingB_iff, List.chain'_reverse]
  rw [nonIncreasingB_iff] at h
  exact h

/-! Claim theorems. -/

/-- C1: for every MACD histogram series with at least 4 trailing points
(read off through `pyNegIdx`, newest last), `signals.macd_signal` returns
BUY when the latest value is positive and the last 3 values are
non-decreasing in time (`h3 ≤ h2 ≤ h1`); otherwise SELL when the latest
value is positive but the last 4 values are non-increasing in time
(`h1 ≤ h2 ≤ h3 ≤ h4`); otherwise HOLD when the latest value is positive;
and SELL when the latest value is non-positive — with the BUY rule
evaluated before the 4-point SELL rule. -/
theorem macd_signal_c1 (hist : List ℚ) (h1 h2 h3 h4 : ℚ)
    (hlen : 4 ≤ hist.length)
    (e1 : pyNegIdx hist 1 = some h1) (e2 : pyNegIdx hist 2 = some h2)
    (e3 : pyNegIdx hist 3 = some h3) (e4 : pyNegIdx hist 4 = some h4) :
    macd_signal hist = some (
      if 0 < h1 ∧ h3 ≤ h2 ∧ h2 ≤ h1 then TradebotAction.BUY
      else if 0 < h1 ∧ h1 ≤ h2 ∧ h2 ≤ h3 ∧ h3 ≤ h4 then TradebotAction.SELL
      else if 0 < h1 then TradebotAction.HOLD
      else TradebotAction.SELL) := by
  clear hlen
  simp only [macd_signal, buyCond, sellCond, holdCond, e1, e2, e3, e4, Option.bind_eq_bind,
    Option.some_bind, Option.pure_def]
  split_ifs <;> simp_all <;> try linarith
  all_goals split_ifs <;> simp_all <;> try linarith

/-- Witness for C1 at the concrete 4-point history `[1, 2, 3, 4]`. -/
theorem macd_signal_c1_witness :
    macd_signal [1, 2, 3, 4] = some TradebotAction.BUY := by
  have h := macd_signal_c1 [1, 2, 3, 4] 4 3 2 1 (by norm_num)
    (by with_unfolding_all rfl) (by with_unfolding_all rfl)
    (by with_unfolding_all rfl) (by with_unfolding_all rfl)
  rw [h]
  norm_num

/-- C10 counterexample: the 3-point history `[1, 5, 3]` has a positive
latest value and fails the BUY ordering, yet evaluating the signal does NOT
go out of bounds: the chained SELL comparison short-circuits at
`5 ≤ 3`-is-false before reading the fourth-from-last element, and the
evaluator returns HOLD. -/
theorem macd_signal_c10_counterexample :
    ([(1 : ℚ), 5, 3].length = 3)
    ∧ pyNegIdx [(1 : ℚ), 5, 3] 1 = some 3 ∧ ((0 : ℚ) < 3)
    ∧ ¬ (((1 : ℚ) ≤ 5) ∧ ((5 : ℚ) ≤ 3))
    ∧ macd_signal [(1 : ℚ), 5, 3] = some TradebotAction.HOLD
    ∧ macd_signal [(1 : ℚ), 5, 3] ≠ none := by
  refine ⟨by norm_num, by with_unfolding_all rfl, by norm_num, by norm_num,
    by with_unfolding_all rfl, ?_⟩
  rw [(by with_unfolding_all rfl : macd_signal [(1 : ℚ), 5, 3] = some TradebotAction.HOLD)]
  simp

/-- C10 (amended): on a 3-point history whose latest value is positive,
`signals.macd_signal` returns BUY without enforcing the 4-point minimum
whenever the last 3 values are non-decreasing in time; when that BUY
ordering fails, the SELL branch reads the out-of-range fourth-from-last
element (raising `IndexError`) exactly when the last 3 values are
non-increasing in time (`h1 ≤ h2 ≤ h3`), and otherwise the chain
short-circuits and the evaluator returns HOLD. -/
theorem macd_signal_len3_c10 (hist : List ℚ) (h1 h2 h3 : ℚ)
    (hlen : hist.length = 3)
    (e1 : pyNegIdx hist 1 = some h1) (e2 : pyNegIdx hist 2 = some h2)
    (e3 : pyNegIdx hist 3 = some h3) (hpos : 0 < h1) :
    (h3 ≤ h2 → h2 ≤ h1 → macd_signal hist = some TradebotAction.BUY)
    ∧ (¬ (h3 ≤ h2 ∧ h2 ≤ h1) →
        macd_signal hist =
          if h1 ≤ h2 ∧ h2 ≤ h3 then none else some TradebotAction.HOLD) := by
  have e4 : pyNegIdx hist 4 = none := by simp [pyNegIdx, hlen]
  constructor
  · intro hb1 hb2
    simp only [macd_signal, buyCond, sellCond, holdCond, e1, e2, e3, e4, Option.bind_eq_bind,
      Option.some_bind, Option.pure_def]
    split_ifs <;> simp_all
  · intro hnb
    simp only [macd_signal, buyCond, sellCond, holdCond, e1, e2, e3, e4, Option.bind_eq_bind,
      Option.some_bind, Option.pure_def]
    split_ifs <;> simp_all

/-- Witness for the amended C10 at the concrete 3-point histories
`[3, 2, 1]` (out-of-bounds) and by the posted counterexample `[1, 5, 3]`
(HOLD). -/
theorem macd_signal_len3_c10_witness :
    macd_signal [3, 2, 1] = none := by
  have h := (macd_signal_len3_c10 [3, 2, 1] 1 2 3 (by norm_num)
    (by with_unfolding_all rfl) (by with_unfolding_all rfl) (by with_unfolding_all rfl)
    (by norm_num)).2 (by norm_num)
  rw [h]
  norm_num

/-- C2: every quota-guarded gateway operation first consults the remaining
quota: strictly below 100 it fails with the quota error
(`CoinbotExceededNumAPICallsError`, the spec's QuotaExhausted) and performs
zero underlying exchange calls; at 100 or more the wrapped operation runs
unchanged. -/
theorem limit_api_calls_c2 {α : Type} (remaining : ℤ) (op : Except CoinbotError α × ℕ) :
    (remaining < 100 →
      limit_api_calls remaining op =
        (Except.error CoinbotError.CoinbotExceededNumAPICallsError, 0))
    ∧ (100 ≤ remaining → limit_api_calls remaining op = op) := by
  constructor
  · intro h
    rw [limit_api_calls, if_pos h]
  · intro h
    rw [limit_api_calls, if_neg (not_lt.mpr h)]

/-- Witness for C2 at remaining quotas 99 and 100. -/
theorem limit_api_calls_c2_witness :
    limit_api_calls 99 (Except.ok (1 : ℚ), 1) =
      (Except.error CoinbotError.CoinbotExceededNumAPICallsError, 0)
    ∧ limit_api_calls 100 (Except.ok (1 : ℚ), 1) = (Except.ok 1, 1) :=
  ⟨(limit_api_calls_c2 99 _).1 (by norm_num), (limit_api_calls_c2 100 _).2 (by norm_num)⟩

/-- C9 counterexample: with 99 remaining calls the quota guard fires first,
so `get_symbol_price` on the quote currency "EUR" raises the quota error
instead of returning 1.0 — the claim's "for every invocation, always
returns 1.0" fails. -/
theorem symbol_price_c9_counterexample :
    cexEnv9.remaining_limit = 99
    ∧ "EUR" ∈ cexEnv9.available_symbols
    ∧ get_symbol_price cexEnv9 "EUR" =
        (Except.error CoinbotError.CoinbotExceededNumAPICallsError, 0)
    ∧ get_symbol_price cexEnv9 "EUR" ≠ (Except.ok 1, 0) := by
  refine ⟨rfl, by simp [cexEnv9, baseEnv], by with_unfolding_all rfl, ?_⟩
  rw [(by with_unfolding_all rfl : get_symbol_price cexEnv9 "EUR" =
    (Except.error CoinbotError.CoinbotExceededNumAPICallsError, 0))]
  simp

/-- C9 (amended): whenever the quota guard passes (at least 100 remaining
calls), `get_symbol_price` on the quote currency "EUR" returns 1.0 with
zero underlying network calls, and on a symbol outside the available set it
fails with `CoinbotUnexpectedValueError` (the spec's UnknownSymbol), also
without a network call. -/
theorem symbol_price_c9_amended (env : BitvavoEnv) (hq : 100 ≤ env.remaining_limit) :
    ("EUR" ∈ env.available_symbols → get_symbol_price env "EUR" = (Except.ok 1, 0))
    ∧ (∀ s, s ∉ env.available_symbols →
        get_symbol_price env s = (Except.error CoinbotError.CoinbotUnexpectedValueError, 0)) := by
  constructor
  · intro hm
    simp [get_symbol_price, limit_api_calls, not_lt.mpr hq, hm]
  · intro s hs
    simp [get_symbol_price, limit_api_calls, not_lt.mpr hq, hs]

/-- Witness for the amended C9 on the baseline snapshot: price of "EUR" and
of the unknown symbol "ZZZ". -/
theorem symbol_price_c9_witness :
    get_symbol_price baseEnv "EUR" = (Except.ok 1, 0)
    ∧ get_symbol_price baseEnv "ZZZ" =
        (Except.error CoinbotError.CoinbotUnexpectedValueError, 0) :=
  ⟨(symbol_price_c9_amended baseEnv (by norm_num [baseEnv])).1 (by simp [baseEnv]),
   (symbol_price_c9_amended baseEnv (by norm_num [baseEnv])).2 "ZZZ" (by simp [baseEnv])⟩

/-- C3 counterexample: in the snapshot `cexEnv3` the owned symbol "AAA" is
no longer available, so its candle fetch raises; the loop of
`analyse_existing_positions` aborts and the other owned symbol "BBB" —
whose own review would succeed (it evaluates to SELL and is liquidated) —
is not reviewed at all in that cycle. -/
theorem analyse_positions_c3_counterexample :
    cexEnv3.owned_symbols = ["AAA", "BBB"]
    ∧ reviewOne cexEnv3 "1d" 1 3 3 "BBB" = Except.ok true
    ∧ analyse_existing_positions cexEnv3 "1d" 1 3 3 =
        ([], some CoinbotError.CoinbotUnexpectedValueError)
    ∧ (analyse_existing_positions cexEnv3 "1d" 1 3 3).1.map Prod.fst = [] := by
  refine ⟨rfl, by with_unfolding_all rfl, by with_unfolding_all rfl, ?_⟩
  rw [(by with_unfolding_all rfl : analyse_existing_positions cexEnv3 "1d" 1 3 3 =
    ([], some CoinbotError.CoinbotUnexpectedValueError))]
  simp

/-- C3 (amended): an exception while processing one symbol (for example a
fetch error) aborts the per-symbol loop, both in the position review and in
`panic` (the spec's `liquidate_all`): the symbols before the failing one
are processed, the failing one and all later ones are not.  (Only an order
rejection reported inside the response payload is absorbed — `live_sell`
returns `False` — and does not abort.) -/
theorem review_abort_c3_amended (env : BitvavoEnv) (res : String) (p1 p2 p3 : ℚ)
    (xs : List String) (y : String) (ys : List String) (e : CoinbotError) :
    (env.owned_symbols = xs ++ y :: ys →
      (∀ x ∈ xs, ∃ a, reviewOne env res p1 p2 p3 x = Except.ok a) →
      reviewOne env res p1 p2 p3 y = Except.error e →
      (analyse_existing_positions env res p1 p2 p3).1.map Prod.fst = xs
        ∧ (analyse_existing_positions env res p1 p2 p3).2 = some e)
    ∧ (100 ≤ env.remaining_limit →
      env.owned_symbols = xs ++ y :: ys →
      (∀ x ∈ xs, ∃ a, sellOne env x = Except.ok a) →
      sellOne env y = Except.error e →
      (panic env).1.map Prod.fst = xs ∧ (panic env).2 = some e) := by
  constructor
  · intro ho hxs hy
    rw [analyse_existing_positions, ho]
    exact runReview_append_error _ xs y ys e hxs hy
  · intro hq ho hxs hy
    rw [panic, if_neg (not_lt.mpr hq), ho]
    exact runReview_append_error _ xs y ys e hxs hy

/-- Witness for the amended C3 on `cexEnv3`, for both the review loop and
`panic`. -/
theorem review_abort_c3_witness :
    (analyse_existing_positions cexEnv3 "1d" 1 3 3).2 =
      some CoinbotError.CoinbotUnexpectedValueError
    ∧ (panic cexEnv3).2 = some CoinbotError.CoinbotUnexpectedValueError :=
  ⟨((review_abort_c3_amended cexEnv3 "1d" 1 3 3 [] "AAA" ["BBB"]
      CoinbotError.CoinbotUnexpectedValueError).1 rfl (by simp)
      (by with_unfolding_all rfl)).2,
   ((review_abort_c3_amended cexEnv3 "1d" 1 3 3 [] "AAA" ["BBB"]
      CoinbotError.CoinbotUnexpectedValueError).2 (by with_unfolding_all decide) rfl (by simp)
      (by with_unfolding_all rfl)).2⟩

/-- C8: every successfully constructed candle series has all six sequences
(timestamps, opens, highs, lows, closes, volumes) of identical length,
including length zero; the empty series has timespan 0.0, and a nonempty
series has timespan `(latest - earliest timestamp) / 1000 + resolution`
seconds (one resolution unit on top of the millisecond-timestamp spread);
the stored sequences are the input ones, in input or reversed order. -/
theorem candles_invariants_c8 (symbol : String) (timestamps : List ℚ)
    (time_resolution : String)
    (opening_positions high_positions low_positions close_positions volumes : List ℚ)
    (order : String) (c : OHLCVCandles)
    (h : OHLCVCandles.init symbol timestamps time_resolution opening_positions high_positions
      low_positions close_positions volumes order = Except.ok c) :
    (c.timestamps.length = c.opening_positions.length
      ∧ c.timestamps.length = c.high_positions.length
      ∧ c.timestamps.length = c.low_positions.length
      ∧ c.timestamps.length = c.close_positions.length
      ∧ c.timestamps.length = c.volumes.length)
    ∧ (timestamps = [] → c.timespan = 0)
    ∧ (∀ res, timestamps ≠ [] → TIME_RESOLUTIONS.lookup time_resolution = some res →
        c.timespan = (listMax timestamps - listMin timestamps) / 1000 + res)
    ∧ (c.timestamps = timestamps ∨ c.timestamps = timestamps.reverse) := by
  simp only [OHLCVCandles.init] at h
  split at h
  case isTrue hpos =>
    split at h
    case h_1 => exact absurd h (by simp)
    case h_2 res hres =>
      split at h
      case isFalse => exact absurd h (by simp)
      case isTrue hlen1 =>
        split at h
        case isFalse => exact absurd h (by simp)
        case isTrue hlen2 =>
          split at h
          case isFalse => exact absurd h (by simp)
          case isTrue hord =>
            split at h
            all_goals
              injection h with h2
              subst h2
              refine ⟨by simp; omega, ?_, ?_, ?_⟩
              · intro he
                subst he
                simp at hpos
              · intro res2 hne hres2
                rw [hres] at hres2
                injection hres2 with h3
                subst h3
                rfl
              · simp
  case isFalse hpos =>
    have hemp : timestamps = [] := by
      cases timestamps with
      | nil => rfl
      | cons a l => simp at hpos
    split at h
    case isFalse => exact absurd h (by simp)
    case isTrue hlen1 =>
      split at h
      case isFalse => exact absurd h (by simp)
      case isTrue hlen2 =>
        split at h
        case isFalse => exact absurd h (by simp)
        case isTrue hord =>
          split at h
          all_goals
            injection h with h2
            subst h2
            refine ⟨by simp; omega, fun _ => rfl, ?_, by simp⟩
            intro res2 hne _
            exact absurd hemp hne

/-- Witness for C8 at a concrete 2-bar construction at the 1-minute
resolution: the timespan is `(2000 - 1000) / 1000 + 60 = 61` seconds. -/
theorem candles_invariants_c8_witness :
    (OHLCVCandles.init "BTC" [1000, 2000] "1m" [1, 2] [3, 4] [0, 1] [2, 3] [7, 8]
      "older-to-newer" =
      Except.ok ⟨"BTC", [1000, 2000], "1m", [1, 2], [3, 4], [0, 1], [2, 3], [7, 8],
        "older-to-newer", 2, 61⟩)
    ∧ (⟨"BTC", [1000, 2000], "1m", [1, 2], [3, 4], [0, 1], [2, 3], [7, 8],
        "older-to-newer", 2, 61⟩ : OHLCVCandles).timespan =
        (listMax [1000, 2000] - listMin [1000, 2000]) / 1000 + 60 := by
  have hinit : OHLCVCandles.init "BTC" [1000, 2000] "1m" [1, 2] [3, 4] [0, 1] [2, 3] [7, 8]
      "older-to-newer" =
      Except.ok ⟨"BTC", [1000, 2000], "1m", [1, 2], [3, 4], [0, 1], [2, 3], [7, 8],
        "older-to-newer", 2, 61⟩ := by with_unfolding_all rfl
  refine ⟨hinit, ?_⟩
  exact (candles_invariants_c8 "BTC" [1000, 2000] "1m" [1, 2] [3, 4] [0, 1] [2, 3] [7, 8]
    "older-to-newer" _ hinit).2.2.1 60 (by simp) (by with_unfolding_all rfl)

/-- A successful construction with `order="newer-to-older"` stores the
reversed timestamp sequence. -/
theorem init_newer_to_older_timestamps (symbol : String) (timestamps : List ℚ)
    (time_resolution : String)
    (opening_positions high_positions low_positions close_positions volumes : List ℚ)
    (c : OHLCVCandles)
    (h : OHLCVCandles.init symbol timestamps time_resolution opening_positions high_positions
      low_positions close_positions volumes "newer-to-older" = Except.ok c) :
    c.timestamps = timestamps.reverse := by
  simp only [OHLCVCandles.init] at h
  split at h
  case isTrue hpos =>
    split at h
    case h_1 => exact absurd h (by simp)
    case h_2 res hres =>
      split at h
      case isFalse => exact absurd h (by simp)
      case isTrue hlen1 =>
        split at h
        case isFalse => exact absurd h (by simp)
        case isTrue hlen2 =>
          split at h
          case isFalse hord => exact absurd (Or.inr trivial) hord
          case isTrue hord =>
            split at h
            case isFalse hne => exact absurd trivial hne
            case isTrue =>
              injection h with h2
              subst h2
              rfl
  case isFalse hpos =>
    split at h
    case isFalse => exact absurd h (by simp)
    case isTrue hlen1 =>
      split at h
      case isFalse => exact absurd h (by simp)
      case isTrue hlen2 =>
        split at h
        case isFalse hord => exact absurd (Or.inr trivial) hord
        case isTrue hord =>
          split at h
          case isFalse hne => exact absurd trivial hne
          case isTrue =>
            injection h with h2
            subst h2
            rfl

/-- C6 counterexample: on the snapshot `cexEnv6` the exchange returns the
two bars newest-first (timestamps 2000 then 1000), yet the candle series
returned by `get_candles` stores `[1000, 2000]` — the most recent bar is
last and the timestamp sequence is not non-increasing, contradicting
"ordered newest-to-oldest". -/
theorem get_candles_c6_counterexample :
    get_candles cexEnv6 "AAA" "1m" "1h" = Except.ok cexCandle6
    ∧ (cexEnv6.api_candles "AAA" "1m" 996400000 1000000000).map CandleRow.ts = [2000, 1000]
    ∧ cexCandle6.timestamps = [1000, 2000]
    ∧ nonIncreasingB cexCandle6.timestamps = false := by
  exact ⟨by with_unfolding_all rfl, by with_unfolding_all rfl, rfl, by with_unfolding_all rfl⟩

/-- C6 (amended): a successful `get_candles` stores the concatenated raw
bars in reversed order (the constructor normalises the `newer-to-older`
input), so whenever the exchange returns the bars newest-to-oldest, the
returned candle series is ordered oldest-to-newest: its timestamp sequence
is non-decreasing, with the most recent bar last. -/
theorem get_candles_c6_amended (env : BitvavoEnv) (symbol time_resolution time_span : String)
    (res span : ℚ) (c : OHLCVCandles)
    (hres : TIME_RESOLUTIONS.lookup time_resolution = some res)
    (hspan : TIME_SPANS.lookup time_span = some span)
    (h : get_candles env symbol time_resolution time_span = Except.ok c) :
    c.timestamps = ((fetched_rows env symbol time_resolution res span).map CandleRow.ts).reverse
    ∧ (nonIncreasingB ((fetched_rows env symbol time_resolution res span).map CandleRow.ts) = true
        → nonDecreasingB c.timestamps = true) := by
  simp only [get_candles, guarded] at h
  split at h
  case isTrue => exact absurd h (by simp)
  case isFalse =>
    simp only [hres, hspan] at h
    split at h
    case isTrue => exact absurd h (by simp)
    case isFalse =>
      have hts := init_newer_to_older_timestamps _ _ _ _ _ _ _ _ _ h
      refine ⟨hts, fun hni => ?_⟩
      rw [hts]
      exact nonDecreasingB_reverse_of_nonIncreasingB _ hni

/-- Witness for the amended C6 on the concrete snapshot `cexEnv6`. -/
theorem get_candles_c6_witness :
    nonDecreasingB cexCandle6.timestamps = true := by
  have h := get_candles_c6_amended cexEnv6 "AAA" "1m" "1h" 60 3600 cexCandle6
    (by with_unfolding_all rfl) (by with_unfolding_all rfl) (by with_unfolding_all rfl)
  exact h.2 (by with_unfolding_all rfl)

/-- The selection keeps `min n` candidates of the ranking. -/
theorem select_data_length (intr : List (String × SymbolMetrics)) (n : ℕ) :
    (select_data intr n).length = min n intr.length := by
  rw [select_data, List.length_take, sortedData, List.length_reverse,
    (List.perm_insertionSort keyLe (symbolData intr)).length_eq, symbolData, List.length_map]

/-- The selected symbol list has one symbol per retained candidate. -/
theorem select_best_symbols_length (intr : List (String × SymbolMetrics)) (n : ℕ) :
    (select_best_symbols intr n).length = min n intr.length := by
  rw [select_best_symbols, List.length_map, select_data_length]

/-- C5: `select_best_symbols` returns the top `n` candidates under the
descending lexicographic order on (order-of-magnitude of 24h volume,
24h growth): the selection is the `n`-prefix of the descending ranking of
the promising records, it is sorted so that equal magnitudes are broken by
higher growth and any higher-magnitude candidate precedes every
lower-magnitude one, every selected candidate comes from the input, every
discarded candidate compares `≤` (in that key order) against every selected
one, and selection plus remainder is a permutation of the input data. -/
theorem select_best_symbols_c5 (intr : List (String × SymbolMetrics)) (n : ℕ) :
    select_best_symbols intr n = (select_data intr n).map (fun d => d.1)
    ∧ (select_data intr n).length = min n intr.length
    ∧ List.Pairwise (fun a b => keyLe b a) (select_data intr n)
    ∧ (∀ d ∈ select_data intr n, d ∈ symbolData intr)
    ∧ (∀ d ∈ select_data intr n, ∀ e ∈ select_rest intr n, keyLe e d)
    ∧ (select_data intr n ++ select_rest intr n).Perm (symbolData intr) := by
  have hperm : (List.insertionSort keyLe (symbolData intr)).Perm (symbolData intr) :=
    List.perm_insertionSort keyLe _
  have hsorted : List.Pairwise keyLe (List.insertionSort keyLe (symbolData intr)) :=
    List.sorted_insertionSort keyLe _
  have hrevSorted : List.Pairwise (fun a b => keyLe b a) (sortedData intr) := by
    rw [sortedData]
    exact List.pairwise_reverse.2 hsorted
  have hsplit : select_data intr n ++ select_rest intr n = sortedData intr :=
    List.take_append_drop n (sortedData intr)
  have hcross := (List.pairwise_append.1 (hsplit ▸ hrevSorted)).2.2
  refine ⟨rfl, select_data_length intr n, ?_, ?_, ?_, ?_⟩
  · exact List.Pairwise.sublist (List.take_sublist n (sortedData intr)) hrevSorted
  · intro d hd
    have hmem : d ∈ sortedData intr := List.mem_of_mem_take hd
    rw [sortedData, List.mem_reverse] at hmem
    exact hperm.mem_iff.1 hmem
  · intro d hd e he
    exact hcross d hd e he
  · rw [hsplit, sortedData]
    exact (List.reverse_perm _).trans hperm

/-- Witness for C5 on the spec's ranking example: with candidates of keys
(6, 3%), (6, 7%) and (7, 1%), the top 2 are the magnitude-7 symbol first
and the 7%-growth symbol second, and the discarded (6, 3%) candidate is
below both selected ones in the key order. -/
theorem select_best_symbols_c5_witness :
    select_best_symbols intrC5 2 = ["C", "B"]
    ∧ keyLe ("A", 6, 3, 6) ("B", 6, 7, 6)
    ∧ keyLe ("A", 6, 3, 6) ("C", 7, 1, 7) := by
  refine ⟨by with_unfolding_all rfl, ?_, ?_⟩
  · exact (select_best_symbols_c5 intrC5 2).2.2.2.2.1 ("B", 6, 7, 6)
      (by with_unfolding_all decide) ("A", 6, 3, 6) (by with_unfolding_all decide)
  · exact (select_best_symbols_c5 intrC5 2).2.2.2.2.1 ("C", 7, 1, 7)
      (by with_unfolding_all decide) ("A", 6, 3, 6) (by with_unfolding_all decide)

/-- An in-range negative index always reads an element. -/
theorem pyNegIdx_isSome (xs : List ℚ) (k : ℕ) (h1 : 1 ≤ k) (h2 : k ≤ xs.length) :
    ∃ q, pyNegIdx xs k = some q := by
  rw [pyNegIdx, if_pos ⟨h1, h2⟩]
  exact ⟨_, List.get?_eq_get (by omega)⟩

/-- On a history of at least 4 points the signal evaluator never goes out of
bounds. -/
theorem macd_signal_isSome (hist : List ℚ) (h : 4 ≤ hist.length) :
    ∃ a, macd_signal hist = some a := by
  obtain ⟨q1, e1⟩ := pyNegIdx_isSome hist 1 (by omega) (by omega)
  obtain ⟨q2, e2⟩ := pyNegIdx_isSome hist 2 (by omega) (by omega)
  obtain ⟨q3, e3⟩ := pyNegIdx_isSome hist 3 (by omega) (by omega)
  obtain ⟨q4, e4⟩ := pyNegIdx_isSome hist 4 (by omega) (by omega)
  rcases Decidable.em (0 < q1) with h1p | h1p <;>
    rcases Decidable.em (q2 ≤ q1) with hb1 | hb1 <;>
    rcases Decidable.em (q3 ≤ q2) with hb2 | hb2 <;>
    rcases Decidable.em (q1 ≤ q2) with hs1 | hs1 <;>
    rcases Decidable.em (q2 ≤ q3) with hs2 | hs2 <;>
    rcases Decidable.em (q3 ≤ q4) with hs3 | hs3 <;>
    simp [macd_signal, buyCond, sellCond, holdCond, e1, e2, e3, e4, h1p, hb1, hb2, hs1, hs2, hs3]

/-- The EMA scan preserves the series length. -/
theorem ewmMeanAux_length (alpha : ℚ) (num den : ℚ) (xs : List ℚ) :
    (ewmMeanAux alpha num den xs).length = xs.length := by
  induction xs generalizing num den with
  | nil => rfl
  | cons x xs ih => simp [ewmMeanAux, ih]

/-- The MACD histogram has one value per closing position. -/
theorem macdHistOf_length (closes : List ℚ) (p1 p2 p3 : ℚ) :
    (macdHistOf closes p1 p2 p3).length = closes.length := by
  simp [macdHistOf, macd_line, macd_signal_col, ewmMean, ewmMeanAux_length, List.length_zipWith]

/-- All six sequences of a successful fetch have the raw row count. -/
theorem fetchedCandles_lengths (env : BitvavoEnv) (symbol res_name : String) (rv sv : ℚ) :
    (fetchedCandles env symbol res_name rv sv).timestamps.length
      = (fetched_rows env symbol res_name rv sv).length
    ∧ (fetchedCandles env symbol res_name rv sv).close_positions.length
      = (fetched_rows env symbol res_name rv sv).length := by
  simp [fetchedCandles]

/-- The 24h-change accessor on an available symbol with quota. -/
theorem change24_ok (env : BitvavoEnv) (s : String) (hq : ¬ env.remaining_limit < 100)
    (hmem : s ∈ env.available_symbols) :
    get_symbol_24h_percentual_change env s = Except.ok (change24Val env s) := by
  rw [get_symbol_24h_percentual_change, guarded, if_neg hq, if_neg (not_not_intro hmem),
    change24Val]
  by_cases h : s = "EUR" <;> simp [h]

/-- The 24h-volume accessor on an available symbol with quota. -/
theorem vol24_ok (env : BitvavoEnv) (s : String) (hq : ¬ env.remaining_limit < 100)
    (hmem : s ∈ env.available_symbols) :
    get_symbol_24h_volume env s = Except.ok (vol24Val env s) := by
  rw [get_symbol_24h_volume, guarded, if_neg hq, if_neg (not_not_intro hmem), vol24Val]
  by_cases h : s = "EUR" <;> simp [h]

/-- A fetch with valid resolution and span names, a known symbol, and quota
succeeds and returns the (reversed) concatenated rows. -/
theorem get_candles_ok (env : BitvavoEnv) (symbol res_name span_name : String) (rv sv : ℚ)
    (hq : ¬ env.remaining_limit < 100)
    (hres : TIME_RESOLUTIONS.lookup res_name = some rv)
    (hspan : TIME_SPANS.lookup span_name = some sv)
    (hmem : symbol ∈ env.available_symbols) :
    get_candles env symbol res_name span_name =
      Except.ok (fetchedCandles env symbol res_name rv sv) := by
  rw [get_candles, guarded, if_neg hq]
  simp only [hres, hspan]
  rw [if_neg (not_not_intro hmem)]
  simp only [OHLCVCandles.init]
  by_cases hl : 0 < (fetched_rows env symbol res_name rv sv).length
  · rw [if_pos (by simpa using hl)]
    simp only [hres]
    rw [if_pos (by simp), if_pos (by simp), if_pos (Or.inr trivial), if_pos trivial,
      fetchedCandles]
    simp only [List.length_map]
    rw [if_pos hl]
  · rw [if_neg (by simpa using hl)]
    rw [if_pos (by simp), if_pos (by simp), if_pos (Or.inr trivial), if_pos trivial,
      fetchedCandles]
    simp only [List.length_map]
    rw [if_neg hl]

/-- Monadic bind on a successful `Except` value. -/
theorem except_bind_ok {ε α β : Type} (a : α) (f : α → Except ε β) :
    (bind (Except.ok a) f : Except ε β) = f a := rfl

/-- One scan-loop step on an available symbol with quota: no exception, and
a record exactly when the symbol is promising. -/
theorem scanSymbol_ok (env : BitvavoEnv) (volume_limit : ℚ) (res : String)
    (rv p1 p2 p3 : ℚ) (s : String) (hq : ¬ env.remaining_limit < 100)
    (hres : TIME_RESOLUTIONS.lookup res = some rv)
    (hmem : s ∈ env.available_symbols) :
    scanSymbol env volume_limit res p1 p2 p3 s =
      Except.ok (promisingEntry env volume_limit res rv p1 p2 p3 s) := by
  have hspan : TIME_SPANS.lookup "1m" = some 2592000 := by with_unfolding_all rfl
  have hclose_len : (fetchedCandles env s res rv 2592000).close_positions.length
      = (fetchedCandles env s res rv 2592000).timestamps.length := by
    simp [fetchedCandles]
  rw [scanSymbol, change24_ok env s hq hmem, except_bind_ok]
  by_cases hg : 0 < change24Val env s
  case neg =>
    rw [if_pos (not_lt.mp hg), promisingEntry, if_neg (fun hP => hg hP.1)]
  case pos =>
    rw [if_neg (not_le.mpr hg), vol24_ok env s hq hmem, except_bind_ok]
    by_cases hv : volume_limit ≤ vol24Val env s
    case neg =>
      rw [if_pos (not_le.mp hv), promisingEntry, if_neg (fun hP => hv hP.2.1)]
    case pos =>
      rw [if_neg (not_lt.mpr hv), get_candles_ok env s res "1m" rv 2592000 hq hres hspan hmem,
        except_bind_ok]
      by_cases hl : (fetchedCandles env s res rv 2592000).timestamps.length = 90
      case neg =>
        rw [if_pos hl, promisingEntry, if_neg (fun hP => hl hP.2.2.1)]
      case pos =>
        rw [if_neg (not_not_intro hl)]
        obtain ⟨a, ha⟩ := macd_signal_isSome
          (macdHistOf (fetchedCandles env s res rv 2592000).close_positions p1 p2 p3)
          (by rw [macdHistOf_length, hclose_len, hl]; omega)
        simp only [ha]
        by_cases hbuy : a = TradebotAction.BUY
        case pos =>
          subst hbuy
          simp only [ne_eq, not_true_eq_false, if_false, ite_false]
          rw [promisingEntry, if_pos ⟨hg, hv, hl, ha⟩]
        case neg =>
          simp only [ne_eq, hbuy, not_false_eq_true, if_true, ite_true]
          rw [promisingEntry,
            if_neg (fun hP => hbuy (Option.some.inj (ha.symm.trans hP.2.2.2)))]

/-- The scan over a symbol list where every step succeeds collects the
promising records in iteration order. -/
theorem scanAll_ok (f : String → Except CoinbotError (Option (String × SymbolMetrics)))
    (g : String → Option (String × SymbolMetrics)) (syms : List String)
    (hf : ∀ s ∈ syms, f s = Except.ok (g s)) :
    scanAll f syms = Except.ok (syms.filterMap g) := by
  induction syms with
  | nil => rfl
  | cons s rest ih =>
    rw [scanAll, hf s (by simp), except_bind_ok,
      ih (fun z hz => hf z (by simp [hz])), except_bind_ok]
    cases hgs : g s <;> simp [List.filterMap_cons, hgs]

/-- C7 (amended): with quota available and a valid resolution, the scan
completes without error and records a symbol if and only if it is in the
available list, its 24h change is strictly positive, its 24h quote volume
is at least the configured floor, its fetched 1-month history has exactly
90 bars — the hardcoded count of the source, which equals the expected
ceiling of span over resolution only for the default 8h resolution — and
its MACD signal on that history is BUY. -/
theorem promising_c7_amended (env : BitvavoEnv) (volume_limit : ℚ) (res : String)
    (rv p1 p2 p3 : ℚ) (hq : 100 ≤ env.remaining_limit)
    (hres : TIME_RESOLUTIONS.lookup res = some rv) :
    get_promising_symbols env volume_limit res p1 p2 p3 =
      Except.ok (env.available_symbols.filterMap
        (promisingEntry env volume_limit res rv p1 p2 p3))
    ∧ (∀ s, s ∈ (env.available_symbols.filterMap
          (promisingEntry env volume_limit res rv p1 p2 p3)).map Prod.fst
        ↔ s ∈ env.available_symbols
          ∧ 0 < change24Val env s
          ∧ volume_limit ≤ vol24Val env s
          ∧ (fetchedCandles env s res rv 2592000).timestamps.length = 90
          ∧ macd_signal (macdHistOf (fetchedCandles env s res rv 2592000).close_positions
              p1 p2 p3) = some TradebotAction.BUY) := by
  have hq2 : ¬ env.remaining_limit < 100 := not_lt.mpr hq
  constructor
  · rw [get_promising_symbols, get_available_symbols, guarded, if_neg hq2, except_bind_ok]
    exact scanAll_ok _ _ _
      (fun s hs => scanSymbol_ok env volume_limit res rv p1 p2 p3 s hq2 hres hs)
  · intro s
    constructor
    · intro hmem
      rw [List.mem_map] at hmem
      obtain ⟨p, hp, hps⟩ := hmem
      rw [List.mem_filterMap] at hp
      obtain ⟨a, ha, hga⟩ := hp
      rw [promisingEntry] at hga
      split at hga
      case isTrue hP =>
        injection hga with h2
        subst h2
        subst hps
        exact ⟨ha, hP.1, hP.2.1, hP.2.2.1, hP.2.2.2⟩
      case isFalse => exact absurd hga (by simp)
    · intro hc
      obtain ⟨hmem, hg, hv, hl, hsig⟩ := hc
      rw [List.mem_map]
      refine ⟨(s, ⟨change24Val env s, vol24Val env s, magnitude10 (vol24Val env s),
        TradebotAction.BUY,
        (macdHistOf (fetchedCandles env s res rv 2592000).close_positions p1 p2 p3).getLastD
          0⟩), ?_, rfl⟩
      rw [List.mem_filterMap]
      exact ⟨s, hmem, by rw [promisingEntry, if_pos ⟨hg, hv, hl, hsig⟩]⟩

/-- Witness for the amended C7 on `witEnv7`: the scan completes, and the
symbol "AAA" (positive growth, volume above the floor, a full 90-bar 8h
history with a BUY signal) is recorded as promising. -/
theorem promising_c7_witness :
    get_promising_symbols witEnv7 250000 "8h" 1 3 3 =
      Except.ok (witEnv7.available_symbols.filterMap (promisingEntry witEnv7 250000 "8h" 28800 1 3 3))
    ∧ "AAA" ∈ (witEnv7.available_symbols.filterMap
        (promisingEntry witEnv7 250000 "8h" 28800 1 3 3)).map Prod.fst := by
  have h := promising_c7_amended witEnv7 250000 "8h" 28800 1 3 3
    (by with_unfolding_all decide) (by with_unfolding_all rfl)
  refine ⟨h.1, (h.2 "AAA").2 ⟨by with_unfolding_all decide, by with_unfolding_all decide,
    by with_unfolding_all decide, by with_unfolding_all rfl, by with_unfolding_all rfl⟩⟩

/-- C7 counterexample: scanning at the 1-day resolution on `cexEnv7`, the
symbol "AAA" satisfies every condition of the claim — strictly positive 24h
change, volume above the floor, a complete 1-month history with the
expected `ceil(span / resolution) = ceil(2592000 / 86400) = 30` bars, and a
BUY MACD signal on that history — yet the scan records nothing, because the
source compares the bar count against the literal 90 instead of the
expected count for the requested resolution. -/
theorem promising_c7_counterexample :
    get_promising_symbols cexEnv7 250000 "1d" 1 3 3 = Except.ok []
    ∧ "AAA" ∈ cexEnv7.available_symbols
    ∧ TIME_RESOLUTIONS.lookup "1d" = some 86400
    ∧ TIME_SPANS.lookup "1m" = some 2592000
    ∧ Int.ceil ((2592000 : ℚ) / 86400) = 30
    ∧ get_candles cexEnv7 "AAA" "1d" "1m" =
        Except.ok (fetchedCandles cexEnv7 "AAA" "1d" 86400 2592000)
    ∧ (0 : ℚ) < change24Val cexEnv7 "AAA"
    ∧ (250000 : ℚ) ≤ vol24Val cexEnv7 "AAA"
    ∧ (fetchedCandles cexEnv7 "AAA" "1d" 86400 2592000).timestamps.length = 30
    ∧ macd_signal (macdHistOf (fetchedCandles cexEnv7 "AAA" "1d" 86400 2592000).close_positions
        1 3 3) = some TradebotAction.BUY := by
  exact ⟨by with_unfolding_all rfl, by simp [cexEnv7, baseEnv], by with_unfolding_all rfl,
    by with_unfolding_all rfl, by with_unfolding_all decide, by with_unfolding_all rfl,
    by with_unfolding_all decide, by with_unfolding_all decide, by with_unfolding_all rfl,
    by with_unfolding_all rfl⟩

/-- C4: when there are fewer open positions than desired (k slots to fill)
and the tradeable funds `F` (the EUR balance after the 2.5% reservation)
exceed the 5.1-per-slot minimum times k, every issued buy order is sized
`floor(F / k)`; the number of issued buys equals the number of selected
promising symbols, which is `min k (number of promising records)` and in
particular at most k — when fewer than k symbols are selected, the stake is
not re-divided over them. -/
theorem open_new_positions_c4 (env : BitvavoEnv) (volume_limit : ℚ) (res : String)
    (p1 p2 p3 : ℚ) (num_desired_positions : ℤ) (intr : List (String × SymbolMetrics))
    (hq : 100 ≤ env.remaining_limit)
    (heur : "EUR" ∈ env.available_symbols)
    (hopen : (env.owned_symbols.length : ℤ) < num_desired_positions)
    (hfunds : (51 : ℚ) / 10 *
        (((num_desired_positions - (env.owned_symbols.length : ℤ)) : ℤ) : ℚ)
        < env.owned_amount "EUR" * (975 / 1000))
    (hscan : get_promising_symbols env volume_limit res p1 p2 p3 = Except.ok intr) :
    open_new_positions env volume_limit res p1 p2 p3 num_desired_positions =
      Except.ok ((select_best_symbols intr
          (num_desired_positions - (env.owned_symbols.length : ℤ)).toNat).map
        (fun ss => (ss, (((Int.floor (env.owned_amount "EUR" * (975 / 1000) /
            (((num_desired_positions - (env.owned_symbols.length : ℤ)) : ℤ) : ℚ))) : ℤ) : ℚ))))
    ∧ (select_best_symbols intr
          (num_desired_positions - (env.owned_symbols.length : ℤ)).toNat).length
        = min (num_desired_positions - (env.owned_symbols.length : ℤ)).toNat intr.length
    ∧ (select_best_symbols intr
          (num_desired_positions - (env.owned_symbols.length : ℤ)).toNat).length
        ≤ (num_desired_positions - (env.owned_symbols.length : ℤ)).toNat
    ∧ (∀ p ∈ ((select_best_symbols intr
          (num_desired_positions - (env.owned_symbols.length : ℤ)).toNat).map
        (fun ss => (ss, (((Int.floor (env.owned_amount "EUR" * (975 / 1000) /
            (((num_desired_positions - (env.owned_symbols.length : ℤ)) : ℤ) : ℚ))) : ℤ) : ℚ)))),
        p.2 = (((Int.floor (env.owned_amount "EUR" * (975 / 1000) /
            (((num_desired_positions - (env.owned_symbols.length : ℤ)) : ℤ) : ℚ))) : ℤ) : ℚ)) := by
  have hq2 : ¬ env.remaining_limit < 100 := not_lt.mpr hq
  refine ⟨?_, select_best_symbols_length intr _, ?_, ?_⟩
  · rw [open_new_positions, get_owned_symbols, guarded, if_neg hq2, except_bind_ok,
      get_available_funds, get_symbol_owned_amount, guarded, if_neg hq2,
      if_neg (not_not_intro heur), except_bind_ok]
    simp only []
    split
    case isTrue =>
      rw [hscan, except_bind_ok]
    case isFalse hcond => exact absurd ⟨hopen, hfunds⟩ hcond
  · rw [select_best_symbols_length intr _]
    exact min_le_left _ _
  · intro p hp
    rw [List.mem_map] at hp
    obtain ⟨ss, _, hss⟩ := hp
    rw [← hss]

/-- Witness for C4 on `witEnvC4` (no open positions, target 4, tradeable
funds exactly 100, no promising symbols): the call succeeds and issues zero
buys. -/
theorem open_new_positions_c4_witness :
    open_new_positions witEnvC4 250000 "8h" 12 26 9 4 = Except.ok [] := by
  have h := open_new_positions_c4 witEnvC4 250000 "8h" 12 26 9 4 []
    (by with_unfolding_all decide) (by simp [witEnvC4, baseEnv])
    (by with_unfolding_all decide) (by with_unfolding_all decide)
    (by with_unfolding_all rfl)
  rw [h.1]
  with_unfolding_all rfl

end Coinbot
